import Mathlib

/-!
Verification of the `heroui-mcp` repository: a shallow embedding of
`src/config.ts`, `src/heroUiScraper.ts` and the tool adapter registered in
`MinimalMcpServer.registerTools`, together with theorems settling the
specification's claims.

The HTML documents consumed by the scraper are modelled by the structural
features the cheerio selectors inspect (anchors with `href`/text, preview
containers with a preceding `h3` and a nested `pre code` block, `h3`
headings followed by a sibling table of `td` rows).  The HTTP transport is
a parameter: a `FetchOutcome` records whether `fetch` delivered the page,
a non-ok status, or a connection failure, exactly the three cases
`fetchHtml` distinguishes.
-/

/- ### JavaScript string primitives
The scraper uses `String.prototype.includes / startsWith / endsWith /
trim / split('-').pop()` and truthiness of strings.  They are modelled
over `List Char`. -/

/-- `leadsWith pat l` : `pat` is a leading segment of `l`
(JS `startsWith` on char lists). -/
def leadsWith : List Char → List Char → Bool
  | [], _ => true
  | _ :: _, [] => false
  | a :: as, b :: bs => a == b && leadsWith as bs

/-- `containsSeq pat l` : `pat` occurs contiguously inside `l`
(JS `includes` on char lists). -/
def containsSeq (pat : List Char) : List Char → Bool
  | [] => leadsWith pat []
  | b :: rest => leadsWith pat (b :: rest) || containsSeq pat rest

/-- JS `s.includes(pat)`. -/
def jsIncludes (s pat : String) : Bool := containsSeq pat.data s.data

/-- JS `s.startsWith(pat)`. -/
def jsStartsWith (s pat : String) : Bool := leadsWith pat.data s.data

/-- JS `s.endsWith(pat)`. -/
def jsEndsWith (s pat : String) : Bool := leadsWith pat.data.reverse s.data.reverse

/-- JS `s.toLowerCase()` on the ASCII identifiers and heading texts the
scraper handles: lower-case each character. -/
def jsToLower (s : String) : String := ⟨s.data.map Char.toLower⟩

/-- JS `s.trim()`: strip whitespace from both ends. -/
def jsTrim (s : String) : String :=
  ⟨((s.data.dropWhile Char.isWhitespace).reverse.dropWhile Char.isWhitespace).reverse⟩

/-- JS `c.split('-')` on char lists: cut at every dash, keeping empty
segments, as JS `split` does on a one-character separator. -/
def splitDashAux : List Char → List Char → List String
  | [], acc => [⟨acc.reverse⟩]
  | c :: rest, acc =>
    if c == '-' then ⟨acc.reverse⟩ :: splitDashAux rest []
    else splitDashAux rest (c :: acc)

/-- JS `c.split('-').pop()` as used by the language detection: the last
segment (the split result is never empty, so `pop` yields a string). -/
def jsSplitDashLast (c : String) : String := (splitDashAux c.data []).getLastD ""

/- ### config.ts -/

/-- config.ts: `export const BASE_URL = 'https://www.heroui.com/docs'`. -/
def BASE_URL : String := "https://www.heroui.com/docs"

/-- config.ts: `class ScrapingError extends Error` — the scraper's only
error kind, carrying a message. -/
structure ScrapingError where
  message : String
deriving DecidableEq, Repr

/-- config.ts `ComponentExampleSchema`: `{ title?, code, language }`. -/
structure ComponentExample where
  title : Option String
  code : String
  language : String
deriving DecidableEq, Repr

/-- config.ts `ComponentApiSchema.props` element:
`{ name, type, description?, defaultValue? }`. -/
structure ApiProperty where
  name : String
  type : String
  description : Option String
  defaultValue : Option String
deriving DecidableEq, Repr

/-- config.ts `ComponentApiSchema.events` element:
`{ name, type, description? }`. -/
structure ApiEvent where
  name : String
  type : String
  description : Option String
deriving DecidableEq, Repr

/-- config.ts `ComponentApi`: `{ props, events }`. -/
structure ComponentApi where
  props : List ApiProperty
  events : List ApiEvent
deriving DecidableEq, Repr

/-- An entry of `getComponentList`'s result: `{ name, url }`. -/
structure ComponentRef where
  name : String
  url : String
deriving DecidableEq, Repr

/- ### heroUiScraper.ts : fetchHtml -/

/-- What the transport does for one GET, parametrised by the page model
delivered on success: `node-fetch` either resolves with an ok response
(`success`), resolves with a non-ok status whose `statusText` is recorded
(`httpError`), or rejects with a connection-level error (`networkError`). -/
inductive FetchOutcome (α : Type) where
  | success (doc : α)
  | httpError (statusText : String)
  | networkError (msg : String)

/-- heroUiScraper.ts `fetchHtml`: on a non-ok response it throws
`ScrapingError('Failed to fetch URL: statusText')`; a rejected fetch is
wrapped as `ScrapingError('Network error fetching URL: message')`;
otherwise the page body is returned. -/
def fetchHtml {α : Type} (url : String) : FetchOutcome α → Except ScrapingError α
  | .success doc => .ok doc
  | .httpError st => .error ⟨"Failed to fetch " ++ url ++ ": " ++ st⟩
  | .networkError m => .error ⟨"Network error fetching " ++ url ++ ": " ++ m⟩

/- ### heroUiScraper.ts : getComponentList -/

/-- One `<a>` element of the introduction page as the selector
`nav a[href^="/docs/components/"]` and the loop body see it: whether it
sits inside a `<nav>`, its `href` attribute, and its visible text. -/
structure NavAnchor where
  inNav : Bool
  href : Option String
  text : String
deriving DecidableEq, Repr

/-- The introduction page: its anchors in document order. -/
structure ListPage where
  anchors : List NavAnchor
deriving DecidableEq, Repr

/-- Whether the CSS selector `nav a[href^="/docs/components/"]` selects an
anchor. -/
def anchorSelected (a : NavAnchor) : Bool :=
  a.inNav &&
    (match a.href with
     | some h => jsStartsWith h "/docs/components/"
     | none => false)

/-- The `.each` body of `getComponentList`: with `name` the trimmed link
text, push `{ name, url }` when `href` and `name` are truthy and `href`
does not end in `/components/` (the main components link); the url is the
`href` itself when it already starts with `http`, else
`https://www.heroui.com` prepended. -/
def anchorToRef (a : NavAnchor) : Option ComponentRef :=
  match a.href with
  | none => none
  | some href =>
    let name := jsTrim a.text
    if href != "" && name != "" && !(jsEndsWith href "/components/") then
      let fullUrl := if jsStartsWith href "http" then href
                     else "https://www.heroui.com" ++ href
      some ⟨name, fullUrl⟩
    else none

/-- The parsing part of `getComponentList`, from the loaded page. -/
def parseComponentList (page : ListPage) : List ComponentRef :=
  (page.anchors.filter anchorSelected).filterMap anchorToRef

/-- heroUiScraper.ts `getComponentList`: fetch `BASE_URL/guide/introduction`,
collect the selected anchors; any error caught in the surrounding `try` is
rethrown as `ScrapingError('Failed to get component list: message')`. -/
def getComponentList (o : FetchOutcome ListPage) :
    Except ScrapingError (List ComponentRef) :=
  match fetchHtml (BASE_URL ++ "/guide/introduction") o with
  | .ok page => .ok (parseComponentList page)
  | .error e => .error ⟨"Failed to get component list: " ++ e.message⟩

/- ### heroUiScraper.ts : getComponentExamples -/

/-- One `div[data-slot="component-preview"]` container as the loop body
sees it: the text of `prevAll('h3').first()` (empty when there is no
preceding `h3` sibling, matching cheerio's `.text()` on an empty
selection), the text of the nested `pre code` selection (empty when
absent), and that code element's `class` attribute. -/
structure PreviewDiv where
  prevH3Text : String
  codeText : String
  codeClass : Option String
deriving DecidableEq, Repr

/-- A component page as `getComponentExamples` reads it: its preview
containers in document order. -/
structure ExamplesPage where
  previews : List PreviewDiv
deriving DecidableEq, Repr

/-- `codeElement.attr('class')?.split('-').pop() || 'typescript'`:
the class-name segment after the last dash, with `'typescript'` when the
attribute is absent or the segment is empty. -/
def languageOf : Option String → String
  | none => "typescript"
  | some c =>
    let l := jsSplitDashLast c
    if l == "" then "typescript" else l

/-- `$previewDiv.prevAll('h3').first().text().trim() || undefined`. -/
def titleOf (pd : PreviewDiv) : Option String :=
  let t := jsTrim pd.prevH3Text
  if t == "" then none else some t

/-- The `.each` body of `getComponentExamples`: push
`{ title, code, language }` when the trimmed code text is truthy. -/
def previewToExample (pd : PreviewDiv) : Option ComponentExample :=
  let title := titleOf pd
  let code := jsTrim pd.codeText
  let language := languageOf pd.codeClass
  if code != "" then some ⟨title, code, language⟩ else none

/-- The parsing part of `getComponentExamples`, from the loaded page. -/
def parseExamples (page : ExamplesPage) : List ComponentExample :=
  page.previews.filterMap previewToExample

/-- The URL both component-scoped scraper operations build:
`BASE_URL/components/` followed by the lower-cased identifier. -/
def componentUrl (componentName : String) : String :=
  BASE_URL ++ "/components/" ++ jsToLower componentName

/-- heroUiScraper.ts `getComponentExamples`: fetch the component page and
collect the examples; in the `catch`, a `ScrapingError` whose message does
not contain `'404'` is rethrown, and one whose message does contain `'404'`
is downgraded to an empty array.  (The remaining `catch` branch wraps
non-`ScrapingError` exceptions; `fetchHtml` only ever throws
`ScrapingError`, so it has no counterpart here.) -/
def getComponentExamples (componentName : String) (o : FetchOutcome ExamplesPage) :
    Except ScrapingError (List ComponentExample) :=
  match fetchHtml (componentUrl componentName) o with
  | .ok page => .ok (parseExamples page)
  | .error e => if !(jsIncludes e.message "404") then .error e else .ok []

/- ### heroUiScraper.ts : getComponentApi -/

/-- One `<tr>` of an API table: the texts of its `td` cells in order. -/
structure TableRow where
  cells : List String
deriving DecidableEq, Repr

/-- A `<table>` sibling of a heading: its `tbody tr` rows in order. -/
structure ApiTable where
  rows : List TableRow
deriving DecidableEq, Repr

/-- One `<h3>` of a component page: its text, and the table selected by
`$h3.next('table').first()` — the immediately following sibling when that
sibling is a table, absent otherwise. -/
structure Heading where
  text : String
  nextTable : Option ApiTable
deriving DecidableEq, Repr

/-- A component page as `getComponentApi` reads it: its `h3` headings in
document order. -/
structure ApiPage where
  headings : List Heading
deriving DecidableEq, Repr

/-- The props-row body: rows with at least two cells become an
`ApiProperty` (cells `0..3` = name, type, description when a third cell
exists, defaultValue when a fourth cell exists); shorter rows are
skipped. -/
def rowToApiProp (r : TableRow) : Option ApiProperty :=
  if 2 ≤ r.cells.length then
    some { name := jsTrim (r.cells.getD 0 "")
         , type := jsTrim (r.cells.getD 1 "")
         , description := if 2 < r.cells.length then some (jsTrim (r.cells.getD 2 "")) else none
         , defaultValue := if 3 < r.cells.length then some (jsTrim (r.cells.getD 3 "")) else none }
  else none

/-- The events-row body: like `rowToApiProp` but with no fourth column. -/
def rowToApiEvent (r : TableRow) : Option ApiEvent :=
  if 2 ≤ r.cells.length then
    some { name := jsTrim (r.cells.getD 0 "")
         , type := jsTrim (r.cells.getD 1 "")
         , description := if 2 < r.cells.length then some (jsTrim (r.cells.getD 2 "")) else none }
  else none

/-- All `ApiProperty` rows of one table. -/
def parseApiProps (t : ApiTable) : List ApiProperty := t.rows.filterMap rowToApiProp

/-- All `ApiEvent` rows of one table. -/
def parseApiEvents (t : ApiTable) : List ApiEvent := t.rows.filterMap rowToApiEvent

/-- The `h3` loop body of `getComponentApi`: when a table directly follows
the heading, append its rows to `props` if the trimmed lower-cased heading
text contains `'props'`, else to `events` if it contains `'events'`. -/
def stepHeading (api : ComponentApi) (h : Heading) : ComponentApi :=
  match h.nextTable with
  | none => api
  | some t =>
    let title := jsToLower (jsTrim h.text)
    if jsIncludes title "props" then { api with props := api.props ++ parseApiProps t }
    else if jsIncludes title "events" then { api with events := api.events ++ parseApiEvents t }
    else api

/-- The parsing part of `getComponentApi`: fold the loop body over the
headings, starting from `{ props: [], events: [] }`. -/
def parseApi (page : ApiPage) : ComponentApi :=
  page.headings.foldl stepHeading ⟨[], []⟩

/-- heroUiScraper.ts `getComponentApi`: fetch the component page, parse
the headings; when both collected arrays are empty return `null`; in the
`catch`, rethrow `ScrapingError`s without `'404'` in the message and
downgrade those with `'404'` to `null`. -/
def getComponentApi (componentName : String) (o : FetchOutcome ApiPage) :
    Except ScrapingError (Option ComponentApi) :=
  match fetchHtml (componentUrl componentName) o with
  | .ok page =>
    let api := parseApi page
    if api.props.length == 0 && api.events.length == 0 then .ok none
    else .ok (some api)
  | .error e => if !(jsIncludes e.message "404") then .error e else .ok none

/- ### Tool adapter (registerTools in the MCP server file) -/

/-- One entry of a tool response's `content` array: a `{type:"text"}` item
or a `{type:"code", title?, code, language}` item (the spread of a
`ComponentExample` in the examples handler). -/
inductive ContentItem where
  | text (s : String)
  | codeEntry (title : Option String) (code : String) (language : String)
deriving DecidableEq, Repr

/-- The response envelope a tool handler returns: the `isError` flag
(absent in the source's success objects, i.e. `false`) and the `content`
array. -/
structure ToolResponse where
  isError : Bool
  content : List ContentItem
deriving DecidableEq, Repr

/-- The `get_heroui_component_list` handler, applied to the outcome of
`getComponentList` (the `try` body's call or the caught error).  Note the
source's separators are written `'\\n'` — the literal two characters
backslash, n — which this embedding reproduces byte for byte. -/
def handleComponentList (result : Except ScrapingError (List ComponentRef)) :
    ToolResponse :=
  match result with
  | .ok components =>
    if components.length == 0 then
      ⟨false, [.text "Could not find any components. The documentation structure might have changed."]⟩
    else
      let componentListText :=
        String.intercalate "\\n" (components.map fun c => "- " ++ c.name ++ " (" ++ c.url ++ ")")
      ⟨false, [.text ("Available HeroUI Components:\\n" ++ componentListText)]⟩
  | .error e => ⟨true, [.text ("Error fetching component list: " ++ e.message)]⟩

/-- The `get_heroui_component_examples` handler, applied to the outcome of
`getComponentExamples componentName`. -/
def handleComponentExamples (componentName : String)
    (result : Except ScrapingError (List ComponentExample)) : ToolResponse :=
  match result with
  | .ok examples =>
    if examples.length == 0 then
      ⟨false, [.text ("No examples found for component '" ++ componentName ++ "'. Check the component name or the documentation structure.")]⟩
    else
      ⟨false, examples.map fun ex => .codeEntry ex.title ex.code ex.language⟩
  | .error e =>
    ⟨true, [.text ("Error fetching examples for " ++ componentName ++ ": " ++ e.message)]⟩

/-- One `Props` bullet of the API text:
`` - `name`: `type` `` with a `` (default: `d`) `` clause when
`defaultValue` is truthy and a `- description` clause when `description`
is truthy (JS truthiness: `undefined` and `''` both drop the clause). -/
def formatApiProp (p : ApiProperty) : String :=
  "- `" ++ p.name ++ "`: `" ++ p.type ++ "`"
    ++ (match p.defaultValue with
        | some d => if d != "" then " (default: `" ++ d ++ "`)" else ""
        | none => "")
    ++ (match p.description with
        | some d => if d != "" then " - " ++ d else ""
        | none => "")

/-- One `Events` bullet of the API text (no default-value clause). -/
def formatApiEvent (e : ApiEvent) : String :=
  "- `" ++ e.name ++ "`: `" ++ e.type ++ "`"
    ++ (match e.description with
        | some d => if d != "" then " - " ++ d else ""
        | none => "")

/-- The `apiText` accumulation of the `get_heroui_component_api` handler:
the banner, then the props section when `props` is non-empty, then the
events section when `events` is non-empty (separators again the literal
backslash-n pairs of the source). -/
def apiTextOf (componentName : String) (api : ComponentApi) : String :=
  let t0 := "API for " ++ componentName ++ ":\\n\\n"
  let t1 :=
    if 0 < api.props.length then
      t0 ++ "**Props:**\\n" ++ String.intercalate "\\n" (api.props.map formatApiProp) ++ "\\n\\n"
    else t0
  if 0 < api.events.length then
    t1 ++ "**Events:**\\n" ++ String.intercalate "\\n" (api.events.map formatApiEvent)
  else t1

/-- The `get_heroui_component_api` handler, applied to the outcome of
`getComponentApi componentName`; the success text is
`apiText.trim() || 'No API details extracted.'`. -/
def handleComponentApi (componentName : String)
    (result : Except ScrapingError (Option ComponentApi)) : ToolResponse :=
  match result with
  | .ok none =>
    ⟨false, [.text ("No API documentation found for component '" ++ componentName ++ "'. Check the component name or the documentation structure.")]⟩
  | .ok (some api) =>
    let t := jsTrim (apiTextOf componentName api)
    ⟨false, [.text (if t == "" then "No API details extracted." else t)]⟩
  | .error e =>
    ⟨true, [.text ("Error fetching API for " ++ componentName ++ ": " ++ e.message)]⟩

/- ### Input validation -/

/-- A raw JSON argument value as the zod layer sees it: a string, or some
non-string value. -/
inductive ArgValue where
  | str (s : String)
  | nonString
deriving DecidableEq, Repr

/-- The input schema `{ componentName: z.string() }` shared by
`get_heroui_component_examples` and `get_heroui_component_api`: validation
succeeds exactly when the argument is present and is a string — any
string, `z.string()` imposing no non-emptiness. -/
def validateComponentName : Option ArgValue → Option String
  | some (.str s) => some s
  | _ => none

/-- A response content array holding exactly one text item. -/
def singleText (r : ToolResponse) : Bool :=
  match r.content with
  | [ContentItem.text _] => true
  | _ => false

/- ### Helper lemmas -/

theorem strData_append (s t : String) : (s ++ t).data = s.data ++ t.data := rfl

theorem leadsWith_append (p : List Char) :
    ∀ l r : List Char, leadsWith p l = true → leadsWith p (l ++ r) = true := by
  induction p with
  | nil => intro l r _; rfl
  | cons a as ih =>
    intro l r h
    cases l with
    | nil => simp [leadsWith] at h
    | cons b bs =>
      simp only [List.cons_append, leadsWith, Bool.and_eq_true] at h ⊢
      exact ⟨h.1, ih bs r h.2⟩

theorem jsTrim_ne_of_head (s : String) (c : Char) (l : List Char)
    (hdata : s.data = c :: l) (hc : c.isWhitespace = false) : jsTrim s ≠ "" := by
  intro h
  have hd := congrArg String.data h
  simp only [jsTrim, hdata, List.dropWhile_cons, hc] at hd
  simp only [Bool.false_eq_true, if_false, List.reverse_eq_nil_iff,
    List.dropWhile_eq_nil_iff] at hd
  have hcmem := hd c (by simp)
  rw [hc] at hcmem
  exact absurd hcmem (by simp)

/- ### Claim theorems -/

/-- C1: every invocation of each of the three tool operations returns a
well-formed response envelope for every extractor outcome and never
re-raises (the handlers are total functions): an extractor fault yields an
envelope with the error flag set and a single text message, an empty or
absent result yields a success envelope with a single explanatory text,
and a non-empty result yields a success envelope with content. -/
theorem C1_adapter_envelopes (cn : String) (e : ScrapingError)
    (c : ComponentRef) (l : List ComponentRef)
    (x : ComponentExample) (xs : List ComponentExample) (api : ComponentApi) :
    ((handleComponentList (.error e)).isError = true
      ∧ singleText (handleComponentList (.error e)) = true)
  ∧ ((handleComponentList (.ok [])).isError = false
      ∧ singleText (handleComponentList (.ok [])) = true)
  ∧ ((handleComponentList (.ok (c :: l))).isError = false
      ∧ (handleComponentList (.ok (c :: l))).content ≠ [])
  ∧ ((handleComponentExamples cn (.error e)).isError = true
      ∧ singleText (handleComponentExamples cn (.error e)) = true)
  ∧ ((handleComponentExamples cn (.ok [])).isError = false
      ∧ singleText (handleComponentExamples cn (.ok [])) = true)
  ∧ ((handleComponentExamples cn (.ok (x :: xs))).isError = false
      ∧ (handleComponentExamples cn (.ok (x :: xs))).content ≠ [])
  ∧ ((handleComponentApi cn (.error e)).isError = true
      ∧ singleText (handleComponentApi cn (.error e)) = true)
  ∧ ((handleComponentApi cn (.ok none)).isError = false
      ∧ singleText (handleComponentApi cn (.ok none)) = true)
  ∧ ((handleComponentApi cn (.ok (some api))).isError = false
      ∧ singleText (handleComponentApi cn (.ok (some api))) = true) := by
  refine ⟨⟨rfl, rfl⟩, ⟨rfl, rfl⟩, ⟨rfl, ?_⟩, ⟨rfl, rfl⟩, ⟨rfl, rfl⟩, ⟨rfl, ?_⟩,
    ⟨rfl, rfl⟩, ⟨rfl, rfl⟩, ⟨rfl, rfl⟩⟩
  · simp [handleComponentList]
  · simp [handleComponentExamples]

/-- C10: both component-scoped extractor operations depend on the
identifier only through its lowercase form (the request URL is built from
the lower-cased identifier), so two identifiers differing only in letter
case give identical results under identical transport behavior. -/
theorem C10_case_insensitive (a b : String) (h : jsToLower a = jsToLower b)
    (oe : FetchOutcome ExamplesPage) (oa : FetchOutcome ApiPage) :
    getComponentExamples a oe = getComponentExamples b oe
  ∧ getComponentApi a oa = getComponentApi b oa
  ∧ componentUrl a = componentUrl b := by
  have hu : componentUrl a = componentUrl b := by
    unfold componentUrl; rw [h]
  refine ⟨?_, ?_, hu⟩
  · unfold getComponentExamples; rw [hu]
  · unfold getComponentApi; rw [hu]

/-- C10 witness: `"Button"` and `"bUTTON"` lower-case identically, and the
two operations return the same (error) result for both under an HTTP 500
outcome. -/
theorem C10_case_insensitive_witness :
    jsToLower "Button" = jsToLower "bUTTON"
  ∧ getComponentExamples "Button" (.httpError "500")
      = getComponentExamples "bUTTON" (.httpError "500")
  ∧ getComponentApi "Button" (.httpError "500")
      = getComponentApi "bUTTON" (.httpError "500") := by
  have h := C10_case_insensitive "Button" "bUTTON" (by decide)
    (.httpError "500") (.httpError "500")
  exact ⟨by decide, h.1, h.2.1⟩

/-- C3: on a successful fetch, `getComponentApi` returns absent exactly
when both collected sequences are empty; when at least one is non-empty it
returns the parsed `ComponentApi` itself, empty sequence intact. -/
theorem C3_absent_iff_both_empty (cn : String) (page : ApiPage) :
    (getComponentApi cn (.success page) = .ok none
      ↔ (parseApi page).props = [] ∧ (parseApi page).events = [])
  ∧ ((parseApi page).props ≠ [] ∨ (parseApi page).events ≠ [] →
      getComponentApi cn (.success page) = .ok (some (parseApi page))) := by
  unfold getComponentApi fetchHtml
  simp only [List.length_eq_zero]
  constructor
  · constructor
    · intro h
      by_cases hp : (parseApi page).props = []
      · by_cases he : (parseApi page).events = []
        · exact ⟨hp, he⟩
        · simp [hp, he] at h
      · simp [hp] at h
    · intro ⟨hp, he⟩
      simp [hp, he]
  · intro hne
    rcases hne with hp | he
    · simp [hp]
    · simp [he]

/-- C3 witness: for a page with one `Props` heading and a two-cell row,
the parsed props are non-empty, the events empty, and the result is the
parsed value with its empty events sequence intact, not absent. -/
theorem C3_absent_iff_both_empty_witness :
    (parseApi ⟨[⟨"Props", some ⟨[⟨["color", "string"]⟩]⟩⟩]⟩).props ≠ []
  ∧ getComponentApi "badge" (.success ⟨[⟨"Props", some ⟨[⟨["color", "string"]⟩]⟩⟩]⟩)
      = .ok (some (parseApi ⟨[⟨"Props", some ⟨[⟨["color", "string"]⟩]⟩⟩]⟩)) := by
  have h := C3_absent_iff_both_empty "badge" ⟨[⟨"Props", some ⟨[⟨["color", "string"]⟩]⟩⟩]⟩
  exact ⟨by decide, h.2 (Or.inl (by decide))⟩

/-- C4 counterexample: against the fixture of spec §8 — a `Props` heading
whose table has the single row `["isSelected","boolean","Whether
selected",""]` — the parsed `ApiProperty` carries `defaultValue = some ""`
(the trimmed empty fourth cell), not the absent value the claim states. -/
theorem C4_counterexample :
    (parseApiProps ⟨[⟨["isSelected", "boolean", "Whether selected", ""]⟩]⟩).map
        ApiProperty.defaultValue = [some ""]
  ∧ (some "" : Option String) ≠ none := by
  exact ⟨by decide, by decide⟩

/-- C4 (amended): rows with fewer than two columns are skipped for both
props and events tables; a two-column row gives `description` and
`defaultValue` absent (not empty string); a four-column row populates all
four fields; and in the §8 fixture whose fourth cell is the empty string
the resulting `ApiProperty` has `defaultValue` present as the empty string
(the code stores the trimmed cell text whenever a fourth cell exists). -/
theorem C4_row_parsing (row : TableRow) (hrow : row.cells.length < 2)
    (a b c d : String) :
    parseApiProps ⟨[row]⟩ = []
  ∧ parseApiEvents ⟨[row]⟩ = []
  ∧ parseApiProps ⟨[⟨[a, b]⟩]⟩ = [⟨jsTrim a, jsTrim b, none, none⟩]
  ∧ parseApiEvents ⟨[⟨[a, b]⟩]⟩ = [⟨jsTrim a, jsTrim b, none⟩]
  ∧ parseApiProps ⟨[⟨[a, b, c, d]⟩]⟩ = [⟨jsTrim a, jsTrim b, some (jsTrim c), some (jsTrim d)⟩]
  ∧ getComponentApi "switch"
      (.success ⟨[⟨"Props", some ⟨[⟨["isSelected", "boolean", "Whether selected", ""]⟩]⟩⟩]⟩)
      = .ok (some ⟨[⟨"isSelected", "boolean", some "Whether selected", some ""⟩], []⟩) := by
  have hn : ¬ (2 ≤ row.cells.length) := Nat.not_le.mpr hrow
  refine ⟨?_, ?_, rfl, rfl, rfl, by rfl⟩
  · simp [parseApiProps, rowToApiProp, hn]
  · simp [parseApiEvents, rowToApiEvent, hn]

/-- C4 witness: a one-cell row is concretely skipped, and the general
two-column and four-column shapes evaluate on concrete cell texts. -/
theorem C4_row_parsing_witness :
    (⟨["isDisabled"]⟩ : TableRow).cells.length < 2
  ∧ parseApiProps ⟨[(⟨["isDisabled"]⟩ : TableRow)]⟩ = []
  ∧ parseApiProps ⟨[⟨[" size ", "string"]⟩]⟩ = [⟨"size", "string", none, none⟩]
  ∧ parseApiProps ⟨[⟨["size", "string", "The size", "md"]⟩]⟩
      = [⟨"size", "string", some "The size", some "md"⟩] := by
  have h := C4_row_parsing ⟨["isDisabled"]⟩ (by decide) " size " "string" "The size" "md"
  refine ⟨by decide, h.1, ?_, ?_⟩
  · have := h.2.2.1
    simpa using this
  · have := (C4_row_parsing ⟨["isDisabled"]⟩ (by decide) "size" "string" "The size" "md").2.2.2.2.1
    simpa using this

/-- C2: when the fetch of a component page fails, `getComponentExamples`
and `getComponentApi` downgrade the fault to an empty / absent result
exactly under the code's not-found condition (the `ScrapingError` message
contains `'404'`) and re-raise the fault unchanged otherwise, while
`getComponentList` has no downgrade and propagates every transport fault
(wrapped in its own `Failed to get component list:` message). -/
theorem C2_notFound_downgrade (cn : String)
    (oe : FetchOutcome ExamplesPage) (oa : FetchOutcome ApiPage)
    (ol : FetchOutcome ListPage) (e e2 e3 : ScrapingError)
    (he : fetchHtml (componentUrl cn) oe = .error e)
    (ha : fetchHtml (componentUrl cn) oa = .error e2)
    (hl : fetchHtml (BASE_URL ++ "/guide/introduction") ol = .error e3) :
    (jsIncludes e.message "404" = true → getComponentExamples cn oe = .ok [])
  ∧ (jsIncludes e.message "404" = false → getComponentExamples cn oe = .error e)
  ∧ (jsIncludes e2.message "404" = true → getComponentApi cn oa = .ok none)
  ∧ (jsIncludes e2.message "404" = false → getComponentApi cn oa = .error e2)
  ∧ getComponentList ol = .error ⟨"Failed to get component list: " ++ e3.message⟩ := by
  unfold getComponentExamples getComponentApi getComponentList
  rw [he, ha, hl]
  exact ⟨fun h => by simp [h], fun h => by simp [h],
    fun h => by simp [h], fun h => by simp [h], rfl⟩

/-- C2 witness: an HTTP failure whose status text is `404` is downgraded
by both component-scoped operations; one whose status text is `Not Found`
is re-raised; the directory listing propagates its wrapped fault. -/
theorem C2_notFound_downgrade_witness :
    getComponentExamples "button" (.httpError "404") = .ok []
  ∧ getComponentApi "button" (.httpError "404") = .ok none
  ∧ getComponentExamples "button" (.httpError "Not Found")
      = .error ⟨"Failed to fetch https://www.heroui.com/docs/components/button: Not Found"⟩
  ∧ getComponentApi "button" (.httpError "Not Found")
      = .error ⟨"Failed to fetch https://www.heroui.com/docs/components/button: Not Found"⟩
  ∧ getComponentList (.httpError "404")
      = .error ⟨"Failed to get component list: Failed to fetch https://www.heroui.com/docs/guide/introduction: 404"⟩ := by
  have h1 := C2_notFound_downgrade "button"
      (.httpError "404") (.httpError "404") (.httpError "404")
      ⟨"Failed to fetch https://www.heroui.com/docs/components/button: 404"⟩
      ⟨"Failed to fetch https://www.heroui.com/docs/components/button: 404"⟩
      ⟨"Failed to fetch https://www.heroui.com/docs/guide/introduction: 404"⟩
      rfl rfl rfl
  have h2 := C2_notFound_downgrade "button"
      (.httpError "Not Found") (.httpError "Not Found") (.httpError "Not Found")
      ⟨"Failed to fetch https://www.heroui.com/docs/components/button: Not Found"⟩
      ⟨"Failed to fetch https://www.heroui.com/docs/components/button: Not Found"⟩
      ⟨"Failed to fetch https://www.heroui.com/docs/guide/introduction: Not Found"⟩
      rfl rfl rfl
  exact ⟨h1.1 (by decide), h1.2.2.1 (by decide), h2.2.1 (by decide),
    h2.2.2.2.1 (by decide), h1.2.2.2.2⟩

/-- C8 counterexample: the shared input schema accepts the empty-string
`componentName` — validation yields the parsed value, it does not
reject. -/
theorem C8_counterexample :
    validateComponentName (some (.str "")) ≠ none
  ∧ validateComponentName (some (.str "")) = some "" :=
  ⟨by decide, rfl⟩

/-- C8 (amended): the two component-scoped operations validate their
argument as a single required text identifier — a missing argument and a
non-string argument are rejected — but `z.string()` imposes no
non-emptiness, so every string, the empty string included, is accepted. -/
theorem C8_validation (s : String) :
    validateComponentName none = none
  ∧ validateComponentName (some .nonString) = none
  ∧ validateComponentName (some (.str s)) = some s :=
  ⟨rfl, rfl, rfl⟩

/-- C5 (the code evaluated at a failing input): the source writes its
separators as `'\\n'` — the literal characters backslash and n — so the
directory listing and the API text come out as one physical line carrying
literal backslash-n pairs, with no newline character anywhere, and the
API text still ends in the two literal pairs after `trim()` (which strips
only real whitespace). -/
theorem C5_literal_backslash_n :
    handleComponentList (.ok
        [⟨"Button", "https://www.heroui.com/docs/components/button"⟩,
         ⟨"Card", "https://www.heroui.com/docs/components/card"⟩])
      = ⟨false, [.text "Available HeroUI Components:\\n- Button (https://www.heroui.com/docs/components/button)\\n- Card (https://www.heroui.com/docs/components/card)"]⟩
  ∧ jsIncludes "Available HeroUI Components:\\n- Button (https://www.heroui.com/docs/components/button)\\n- Card (https://www.heroui.com/docs/components/card)" "\n" = false
  ∧ jsIncludes "Available HeroUI Components:\\n- Button (https://www.heroui.com/docs/components/button)\\n- Card (https://www.heroui.com/docs/components/card)" "\\n" = true
  ∧ apiTextOf "switch" ⟨[⟨"isSelected", "boolean", none, none⟩], []⟩
      = "API for switch:\\n\\n**Props:**\\n- `isSelected`: `boolean`\\n\\n"
  ∧ jsTrim "API for switch:\\n\\n**Props:**\\n- `isSelected`: `boolean`\\n\\n"
      = "API for switch:\\n\\n**Props:**\\n- `isSelected`: `boolean`\\n\\n"
  ∧ jsIncludes "API for switch:\\n\\n**Props:**\\n- `isSelected`: `boolean`\\n\\n" "\n" = false := by
  exact ⟨by rfl, by decide, by decide, by rfl, by decide, by decide⟩

/-- A directory fixture in the style of spec §8: two qualifying links
(Button, Card) among disqualifying ones — the root components link, an
external link failing the selector prefix, an anchor outside the nav, a
whitespace-only label, a missing href. -/
def listFixture : ListPage :=
  ⟨[⟨true, some "/docs/components/button", " Button "⟩,
    ⟨true, some "/docs/components/", "Components"⟩,
    ⟨true, some "https://github.com/heroui-inc/heroui", "GitHub"⟩,
    ⟨false, some "/docs/components/card", "Card"⟩,
    ⟨true, some "/docs/components/ghost", "   "⟩,
    ⟨true, none, "NoHref"⟩,
    ⟨true, some "/docs/components/card", "Card"⟩]⟩

/-- C6: on a successful fetch `getComponentList` returns the parsed
sequence and never an error (in particular the empty sequence when no
link matches); every returned entry has a non-empty name and an absolute
url (`http...`, relative hrefs being resolved against
`https://www.heroui.com`); and on the fixture the qualifying links come
out in document order with the root link and the other disqualified
anchors excluded. -/
theorem C6_componentList (page : ListPage) (r : ComponentRef)
    (hr : r ∈ parseComponentList page) :
    getComponentList (.success page) = .ok (parseComponentList page)
  ∧ r.name ≠ ""
  ∧ jsStartsWith r.url "http" = true
  ∧ parseComponentList listFixture =
      [⟨"Button", "https://www.heroui.com/docs/components/button"⟩,
       ⟨"Card", "https://www.heroui.com/docs/components/card"⟩] := by
  obtain ⟨a, _, hconv⟩ := List.mem_filterMap.mp hr
  refine ⟨rfl, ?_, ?_, by rfl⟩
  · cases hhref : a.href with
    | none => simp [anchorToRef, hhref] at hconv
    | some href =>
      simp only [anchorToRef, hhref] at hconv
      split at hconv
      · next hcond =>
        simp only [Bool.and_eq_true, bne_iff_ne] at hcond
        cases hconv
        exact hcond.1.2
      · simp at hconv
  · cases hhref : a.href with
    | none => simp [anchorToRef, hhref] at hconv
    | some href =>
      simp only [anchorToRef, hhref] at hconv
      split at hconv
      · next hcond =>
        cases hconv
        by_cases hh : jsStartsWith href "http" = true
        · simp [hh]
        · have hh' : jsStartsWith href "http" = false := by
            simpa using hh
          simp only [hh', Bool.false_eq_true, if_false]
          unfold jsStartsWith
          rw [strData_append]
          exact leadsWith_append _ _ _ (by decide)
      · simp at hconv

/-- C6 witness: the fixture page and its first returned entry — the entry
is a member of the parsed sequence, its name is non-empty, its url
absolute, and the full parse is the two qualifying links in order. -/
theorem C6_componentList_witness :
    (⟨"Button", "https://www.heroui.com/docs/components/button"⟩ : ComponentRef)
        ∈ parseComponentList listFixture
  ∧ ("Button" : String) ≠ ""
  ∧ jsStartsWith "https://www.heroui.com/docs/components/button" "http" = true
  ∧ parseComponentList listFixture =
      [⟨"Button", "https://www.heroui.com/docs/components/button"⟩,
       ⟨"Card", "https://www.heroui.com/docs/components/card"⟩] := by
  have h := C6_componentList listFixture
    ⟨"Button", "https://www.heroui.com/docs/components/button"⟩ (by decide)
  exact ⟨by decide, h.2.1, h.2.2.1, h.2.2.2⟩

/-- The §8 examples fixture: one preview container with a preceding
heading `Basic Usage` and a code block of class `language-jsx` and text
`<Button>Click</Button>`. -/
def buttonFixture : ExamplesPage :=
  ⟨[⟨"Basic Usage", "<Button>Click</Button>", some "language-jsx"⟩]⟩

/-- C7: a container whose code text trims to empty is skipped without
affecting the remaining containers; a container with non-empty code
yields the entry built from the nearest preceding heading (as optional
title), the trimmed code text, and the language from the class-name
suffix; the language falls back to `typescript` when the class is absent
or its last dash segment empty; and on the §8 button fixture
`getComponentExamples` yields exactly the expected single entry. -/
theorem C7_examples (pd pd2 : PreviewDiv) (rest : List PreviewDiv)
    (hskip : jsTrim pd.codeText = "") (h2 : jsTrim pd2.codeText ≠ "") :
    parseExamples ⟨pd :: rest⟩ = parseExamples ⟨rest⟩
  ∧ parseExamples ⟨pd2 :: rest⟩ =
      ⟨titleOf pd2, jsTrim pd2.codeText, languageOf pd2.codeClass⟩ :: parseExamples ⟨rest⟩
  ∧ languageOf none = "typescript"
  ∧ languageOf (some "language-") = "typescript"
  ∧ getComponentExamples "button" (.success buttonFixture)
      = .ok [⟨some "Basic Usage", "<Button>Click</Button>", "jsx"⟩] := by
  refine ⟨?_, ?_, rfl, by rfl, by rfl⟩
  · simp [parseExamples, previewToExample, hskip]
  · simp [parseExamples, previewToExample, h2]

/-- C7 witness: a codeless container produces nothing while the container
after it still yields its entry, with title, code and fallback
language. -/
theorem C7_examples_witness :
    jsTrim ("" : String) = ""
  ∧ jsTrim ("const x = 1" : String) ≠ ""
  ∧ parseExamples ⟨[⟨"Broken", "", none⟩, ⟨"Usage", "const x = 1", none⟩]⟩
      = parseExamples ⟨[⟨"Usage", "const x = 1", none⟩]⟩
  ∧ parseExamples ⟨[⟨"Usage", "const x = 1", none⟩]⟩
      = [⟨some "Usage", "const x = 1", "typescript"⟩] := by
  have h := C7_examples ⟨"Broken", "", none⟩ ⟨"Usage", "const x = 1", none⟩
    [⟨"Usage", "const x = 1", none⟩] (by decide) (by decide)
  have h2 := C7_examples ⟨"Broken", "", none⟩ ⟨"Usage", "const x = 1", none⟩ []
    (by decide) (by decide)
  refine ⟨by decide, by decide, h.1, ?_⟩
  have := h2.2.1
  simpa using this

/-- The API text always begins with the banner's letter `A`, whichever
sections follow. -/
theorem apiTextOf_headA (cn : String) (api : ComponentApi) :
    ∃ l, (apiTextOf cn api).data = 'A' :: l := by
  simp only [apiTextOf]
  split
  · split
    · exact ⟨_, rfl⟩
    · exact ⟨_, rfl⟩
  · split
    · exact ⟨_, rfl⟩
    · exact ⟨_, rfl⟩

/-- C9: whenever `getComponentApi` returns a non-absent value, at least
one of its sequences is non-empty; the API text the adapter builds is
never empty after trimming (its banner survives), so the handler returns
the trimmed text and its `No API details extracted.` fallback is
unreachable. -/
theorem C9_no_fallback (cn : String) (o : FetchOutcome ApiPage) (api : ComponentApi)
    (h : getComponentApi cn o = .ok (some api)) :
    (api.props ≠ [] ∨ api.events ≠ [])
  ∧ jsTrim (apiTextOf cn api) ≠ ""
  ∧ handleComponentApi cn (.ok (some api))
      = ⟨false, [.text (jsTrim (apiTextOf cn api))]⟩ := by
  have htrim : jsTrim (apiTextOf cn api) ≠ "" := by
    obtain ⟨l, hl⟩ := apiTextOf_headA cn api
    exact jsTrim_ne_of_head _ 'A' l hl (by decide)
  refine ⟨?_, htrim, ?_⟩
  · cases o with
    | success page =>
      simp only [getComponentApi, fetchHtml] at h
      split at h
      · simp at h
      · next hcond =>
        simp only [Except.ok.injEq, Option.some.injEq] at h
        subst h
        by_cases hp : (parseApi page).props = []
        · right
          intro hev
          exact hcond (by simp [hp, hev])
        · left
          exact hp
    | httpError st =>
      simp only [getComponentApi, fetchHtml] at h
      split at h
      · simp at h
      · simp at h
    | networkError m =>
      simp only [getComponentApi, fetchHtml] at h
      split at h
      · simp at h
      · simp at h
  · simp only [handleComponentApi]
    rw [if_neg (by simp [htrim])]

/-- C9 witness: a page with a single `Events` table gives a non-absent
result with empty props, and the handler emits the trimmed API text, not
the fallback. -/
theorem C9_no_fallback_witness :
    getComponentApi "modal"
        (.success ⟨[⟨"Events", some ⟨[⟨["onClose", "() => void"]⟩]⟩⟩]⟩)
      = .ok (some ⟨[], [⟨"onClose", "() => void", none⟩]⟩)
  ∧ (([] : List ApiProperty) ≠ []
      ∨ ([⟨"onClose", "() => void", none⟩] : List ApiEvent) ≠ [])
  ∧ jsTrim (apiTextOf "modal" ⟨[], [⟨"onClose", "() => void", none⟩]⟩) ≠ ""
  ∧ handleComponentApi "modal" (.ok (some ⟨[], [⟨"onClose", "() => void", none⟩]⟩))
      = ⟨false, [.text (jsTrim (apiTextOf "modal" ⟨[], [⟨"onClose", "() => void", none⟩]⟩))]⟩ := by
  have h := C9_no_fallback "modal"
    (.success ⟨[⟨"Events", some ⟨[⟨["onClose", "() => void"]⟩]⟩⟩]⟩)
    ⟨[], [⟨"onClose", "() => void", none⟩]⟩ (by rfl)
  exact ⟨by rfl, h.1, h.2.1, h.2.2⟩
